import Mathlib

/-!
Verification of the HR Q&A RAG pipeline against its specification.

Shallow embedding of the Python sources:
- `PDFProcessor.chunk_text` and `PDFProcessor.generate_embedding`
  (src/processors/pdf_processor.py)
- `CosmosVectorDB.insert_documents` and `CosmosVectorDB.search`
  (src/vector_db/vector_db/cosmos_vector_db.py)
- `HRAssistantTeam.ask_question` (src/agents/hr_agents.py)

External collaborators (MongoDB vector index, Azure OpenAI embedding and
chat services) are modelled as oracle parameters, following the black-box
treatment the specification prescribes for them.  Python floats are
modelled as exact rationals.  Machine 32-bit words in the MD5 content hash
are modelled as naturals reduced modulo 2 ^ 32.
-/

set_option maxRecDepth 100000

namespace HRQA

/-! ### Chunker: `PDFProcessor.chunk_text`

Python loop (pdf_processor.py lines 102-117):

  chunks = []; start = 0
  while start < len(text):
      chunk = text[start : start + chunk_size].strip()
      if chunk: chunks.append(chunk)
      start += (chunk_size - overlap)

A non-positive stride makes the loop diverge, so the loop is embedded with
explicit fuel; `none` models divergence (fuel exhausted while the guard
still holds).  `chunk_text` supplies `length + 1` fuel, which suffices
whenever the stride is positive.
-/

/-- Characters removed by Python `str.strip`: the full set of code points
for which CPython `Py_UNICODE_ISSPACE` holds (U+0009-U+000D, U+001C-U+001F,
space, U+0085, U+00A0, U+1680, U+2000-U+200A, U+2028, U+2029, U+202F,
U+205F and U+3000). -/
def isPySpace (c : Char) : Bool :=
  let n := c.toNat
  (9 ≤ n && n ≤ 13) || (28 ≤ n && n ≤ 32) || n == 133 || n == 160 || n == 5760 ||
    (8192 ≤ n && n ≤ 8202) || n == 8232 || n == 8233 || n == 8239 || n == 8287 || n == 12288

/-- Python `s.strip()`: remove leading, then trailing, whitespace. -/
def pyStrip (l : List Char) : List Char :=
  List.rdropWhile isPySpace (l.dropWhile isPySpace)

/-- Python slice `text[start:fin]` for `0 ≤ start ≤ fin` (clamped at the
length, as Python slicing is). -/
def pySlice (l : List Char) (start fin : Nat) : List Char :=
  (l.take fin).drop start

/-- Fuel-indexed embedding of the `while start < len(text)` loop of
`chunk_text`.  `none` means the fuel ran out with the guard still true,
i.e. the Python loop would still be running. -/
def chunkLoop (text : List Char) (chunk_size overlap : Nat) : Nat → Nat → Option (List (List Char))
  | 0, start => if start < text.length then none else some []
  | fuel + 1, start =>
    if start < text.length then
      let chunk := pyStrip (pySlice text start (start + chunk_size))
      match chunkLoop text chunk_size overlap fuel (start + (chunk_size - overlap)) with
      | none => none
      | some rest => some (if chunk.isEmpty then rest else chunk :: rest)
    else some []

/-- Embedding of `PDFProcessor.chunk_text`.  The subtraction
`chunk_size - overlap` is the Python stride; for `overlap ≤ chunk_size`
the truncated natural subtraction agrees with Python, and for
`overlap ≥ chunk_size` both the model (stride 0, fuel exhaustion, `none`)
and Python (non-positive stride) fail to terminate. -/
def chunk_text (text : String) (chunk_size overlap : Nat) : Option (List String) :=
  (chunkLoop text.toList chunk_size overlap (text.toList.length + 1) 0).map
    (fun l => l.map (fun cs => String.mk cs))

/-- Input of the worked example in the spec and the code docstring. -/
def helloWorldTest : String := "Hello world test"

/-! ### MD5 content hash (`hashlib.md5(...).hexdigest()`)

`insert_documents` derives missing ids as `"doc_" + md5(content.encode()).hexdigest()`.
The hash is embedded bit-for-bit (RFC 1321) over the UTF-8 bytes of the
content, with 32-bit words as naturals reduced modulo `2 ^ 32`. -/

/-- UTF-8 encoding of a string (Python `str.encode()`), as byte values. -/
def utf8Bytes (s : String) : List Nat :=
  s.toList.flatMap (fun c =>
    let n := c.toNat
    if n < 128 then [n]
    else if n < 2048 then [192 + n / 64, 128 + n % 64]
    else if n < 65536 then [224 + n / 4096, 128 + (n / 64) % 64, 128 + n % 64]
    else [240 + n / 262144, 128 + (n / 4096) % 64, 128 + (n / 64) % 64, 128 + n % 64])

/-- Modulus of 32-bit machine words. -/
def m32 : Nat := 4294967296

/-- Bitwise complement on 32-bit words. -/
def not32 (x : Nat) : Nat := 4294967295 - x

/-- Left rotation of a 32-bit word by `s` places. -/
def rotl32 (x s : Nat) : Nat := (x * 2 ^ s) % m32 + x / 2 ^ (32 - s)

/-- MD5 round function F. -/
def md5F (b c d : Nat) : Nat := Nat.lor (Nat.land b c) (Nat.land (not32 b) d)

/-- MD5 round function G. -/
def md5G (b c d : Nat) : Nat := Nat.lor (Nat.land d b) (Nat.land (not32 d) c)

/-- MD5 round function H. -/
def md5H (b c d : Nat) : Nat := Nat.xor b (Nat.xor c d)

/-- MD5 round function I. -/
def md5I (b c d : Nat) : Nat := Nat.xor c (Nat.lor b (not32 d))

/-- MD5 sine-table constants `K[0..63]`. -/
def md5K : List Nat :=
  [3614090360, 3905402710, 606105819, 3250441966, 4118548399, 1200080426, 2821735955, 4249261313,
   1770035416, 2336552879, 4294925233, 2304563134, 1804603682, 4254626195, 2792965006, 1236535329,
   4129170786, 3225465664, 643717713, 3921069994, 3593408605, 38016083, 3634488961, 3889429448,
   568446438, 3275163606, 4107603335, 1163531501, 2850285829, 4243563512, 1735328473, 2368359562,
   4294588738, 2272392833, 1839030562, 4259657740, 2763975236, 1272893353, 4139469664, 3200236656,
   681279174, 3936430074, 3572445317, 76029189, 3654602809, 3873151461, 530742520, 3299628645,
   4096336452, 1126891415, 2878612391, 4237533241, 1700485571, 2399980690, 4293915773, 2240044497,
   1873313359, 4264355552, 2734768916, 1309151649, 4149444226, 3174756917, 718787259, 3951481745]

/-- MD5 per-round left-rotation amounts `S[0..63]`. -/
def md5S : List Nat :=
  [7, 12, 17, 22, 7, 12, 17, 22, 7, 12, 17, 22, 7, 12, 17, 22,
   5, 9, 14, 20, 5, 9, 14, 20, 5, 9, 14, 20, 5, 9, 14, 20,
   4, 11, 16, 23, 4, 11, 16, 23, 4, 11, 16, 23, 4, 11, 16, 23,
   6, 10, 15, 21, 6, 10, 15, 21, 6, 10, 15, 21, 6, 10, 15, 21]

/-- Little-endian 32-bit word `j` of a 64-byte block. -/
def wordAt (block : List Nat) (j : Nat) : Nat :=
  block.getD (4 * j) 0 + 256 * block.getD (4 * j + 1) 0 + 65536 * block.getD (4 * j + 2) 0
    + 16777216 * block.getD (4 * j + 3) 0

/-- One of the 64 MD5 rounds, acting on the state `(a, b, c, d)`. -/
def md5Step (w : List Nat) (st : Nat × Nat × Nat × Nat) (i : Nat) : Nat × Nat × Nat × Nat :=
  let a := st.1
  let b := st.2.1
  let c := st.2.2.1
  let d := st.2.2.2
  let fg : Nat × Nat :=
    if i < 16 then (md5F b c d, i)
    else if i < 32 then (md5G b c d, (5 * i + 1) % 16)
    else if i < 48 then (md5H b c d, (3 * i + 5) % 16)
    else (md5I b c d, (7 * i) % 16)
  let tmp := (a + fg.1 + md5K.getD i 0 + w.getD fg.2 0) % m32
  (d, (b + rotl32 tmp (md5S.getD i 0)) % m32, b, c)

/-- Process one 64-byte block of the padded message. -/
def md5Block (st : Nat × Nat × Nat × Nat) (block : List Nat) : Nat × Nat × Nat × Nat :=
  let w := (List.range 16).map (wordAt block)
  let r := (List.range 64).foldl (md5Step w) st
  ((st.1 + r.1) % m32, (st.2.1 + r.2.1) % m32, (st.2.2.1 + r.2.2.1) % m32,
    (st.2.2.2 + r.2.2.2) % m32)

/-- MD5 padding: a 1-bit, zeros to 56 mod 64 bytes, then the bit length as
a little-endian 64-bit quantity. -/
def md5Pad (msg : List Nat) : List Nat :=
  let len := msg.length
  msg ++ 128 :: List.replicate ((120 - (len + 1) % 64) % 64) 0
    ++ (List.range 8).map (fun i => (8 * len) % 18446744073709551616 / 2 ^ (8 * i) % 256)

/-- Split a byte list into 64-byte blocks (fuel-indexed to keep the
recursion structural; the supplied fuel always suffices). -/
def toBlocksF : Nat → List Nat → List (List Nat)
  | 0, _ => []
  | fuel + 1, l => if l.isEmpty then [] else l.take 64 :: toBlocksF fuel (l.drop 64)

/-- Little-endian byte serialization of a 32-bit word. -/
def wordBytes (x : Nat) : List Nat := [x % 256, x / 256 % 256, x / 65536 % 256, x / 16777216 % 256]

/-- MD5 digest (16 bytes) of a byte message. -/
def md5Digest (msg : List Nat) : List Nat :=
  let padded := md5Pad msg
  let st := (toBlocksF padded.length padded).foldl md5Block
    (1732584193, 4023233417, 2562383102, 271733878)
  wordBytes st.1 ++ wordBytes st.2.1 ++ wordBytes st.2.2.1 ++ wordBytes st.2.2.2

/-- Lower-case hexadecimal digit. -/
def hexDigitChar (n : Nat) : Char := if n < 10 then Char.ofNat (48 + n) else Char.ofNat (87 + n)

/-- Two-digit lower-case hexadecimal rendering of a byte. -/
def byteToHex (b : Nat) : List Char := [hexDigitChar (b / 16), hexDigitChar (b % 16)]

/-- Python `hashlib.md5(s.encode()).hexdigest()`. -/
def md5_hexdigest (s : String) : String :=
  String.mk ((md5Digest (utf8Bytes s)).flatMap byteToHex)

/-- Test vector inputs for the hash embedding. -/
def emptyText : String := ""

/-- Second test vector input. -/
def abcText : String := "abc"

/-! ### Document store: `CosmosVectorDB.insert_documents`

Python (cosmos_vector_db.py lines 139-164):

  inserted_count = 0
  for doc in documents:
      try:
          if "_id" not in doc:
              content_hash = hashlib.md5(doc.get("content", "").encode()).hexdigest()
              doc["_id"] = f"doc_\x7bcontent_hash\x7d"
          self.collection.replace_one(\x7b"_id": doc["_id"]\x7d, doc, upsert=True)
          inserted_count += 1
      except Exception:
          continue

A document dictionary is embedded as a record of its `"_id"` and
`"content"` entries (both possibly absent) plus its remaining key-value
entries.  The collection is an association list keyed by `"_id"`.  The
external `replace_one` call can raise; which iterations raise is an oracle
parameter `failIdx` (the set of failing loop indices), and a failing
iteration leaves the store untouched, exactly as the `except/continue`
arm does. -/

/-- Embedding of a Python document dictionary: the `"_id"` entry, the
`"content"` entry, and all remaining entries. -/
structure PyDoc where
  docId : Option String
  content : Option String
  fields : List (String × String)
deriving DecidableEq

/-- Lines 143-148: derive `"doc_" + md5(content).hexdigest()` as the id
when the document has none; `doc.get("content", "")` defaults a missing
content to the empty string. -/
def assignId (doc : PyDoc) : PyDoc :=
  match doc.docId with
  | some _ => doc
  | none => { doc with docId := some ( "doc_" ++ md5_hexdigest (doc.content.getD "")) }

/-- The MongoDB collection, as an association list keyed by id. -/
abbrev Store := List (String × PyDoc)

/-- Semantics of `replace_one(filter, doc, upsert=True)`: replace the
record carrying the id if present, append it otherwise. -/
def replace_one (store : Store) (id : String) (doc : PyDoc) : Store :=
  if store.any (fun kv => kv.1 == id) then
    store.map (fun kv => if kv.1 == id then (id, doc) else kv)
  else store ++ [(id, doc)]

/-- Whether the store holds a record with the given id. -/
def hasKey (store : Store) (id : String) : Bool :=
  store.any (fun kv => kv.1 == id)

/-- The `for doc in documents` loop of `insert_documents`: threads the
store, counts successful writes, and returns the documents as mutated by
the id assignment (line 148 mutates the dictionaries passed by the
caller).  `i` is the loop index matched against the failure oracle. -/
def insertLoop (failIdx : List Nat) : Store → Nat → List PyDoc → Store × Nat × List PyDoc
  | store, _, [] => (store, 0, [])
  | store, i, doc :: docs =>
    let d2 := assignId doc
    if i ∈ failIdx then
      let r := insertLoop failIdx store (i + 1) docs
      (r.1, r.2.1, d2 :: r.2.2)
    else
      let r := insertLoop failIdx (replace_one store (d2.docId.getD "") d2) (i + 1) docs
      (r.1, r.2.1 + 1, d2 :: r.2.2)

/-- Embedding of `CosmosVectorDB.insert_documents`: final store, returned
count, and the caller-visible mutated document list. -/
def insert_documents (failIdx : List Nat) (store : Store) (documents : List PyDoc) :
    Store × Nat × List PyDoc :=
  insertLoop failIdx store 0 documents

/-- First half of a published two-block MD5 collision pair (printable
ASCII, differing only at offset 21). -/
def collisionTextA : String := "TEXTCOLLBYfGiJUETHQ4hAcKSMd5zYpgqf1YRDhkmxHkhPWptrkoyz28wnI9V0aHeAuaKnak"

/-- Second half of the collision pair. -/
def collisionTextB : String := "TEXTCOLLBYfGiJUETHQ4hEcKSMd5zYpgqf1YRDhkmxHkhPWptrkoyz28wnI9V0aHeAuaKnak"

/-- The id both collision documents receive. -/
def collisionId : String := "doc_faad49866e9498fc1719f5289e7a0269"

/-- Document without id holding the first collision text. -/
def docA : PyDoc := ⟨none, some collisionTextA, []⟩

/-- Document without id holding the second collision text. -/
def docB : PyDoc := ⟨none, some collisionTextB, []⟩

/-- Concrete content for witnesses. -/
def contentOne : String := "alpha"

/-- Second concrete content for witnesses. -/
def contentTwo : String := "beta"

/-- Witness document with the first content. -/
def docOne : PyDoc := ⟨none, some contentOne, []⟩

/-- Witness document with the second content. -/
def docTwo : PyDoc := ⟨none, some contentTwo, []⟩

/-- Default value used when indexing document lists. -/
def defaultDoc : PyDoc := ⟨none, none, []⟩

/-! ### Vector search: `CosmosVectorDB.search`

Python (cosmos_vector_db.py lines 191-229): the aggregation pipeline is a
call into the external store (which receives `top_k` as `k`), so its
result is an oracle `raw`; `none` models the call raising (the `except`
arm returns `[]`).  The code then optionally filters by
`doc.get("similarity", 0.0) >= similarity_threshold`, skipping the filter
entirely unless `similarity_threshold > 0.0`.  Float scores are modelled
as exact rationals. -/

/-- Embedding of a query result document as projected by the pipeline:
`content`, `metadata` (an association list if present) and `similarity`,
each possibly absent. -/
structure SearchResult where
  content : Option String
  metadata : Option (List (String × String))
  similarity : Option ℚ
deriving DecidableEq

/-- Embedding of `CosmosVectorDB.search` around the black-box aggregate
call. -/
def search (raw : Option (List SearchResult)) (similarity_threshold : ℚ) :
    List SearchResult :=
  match raw with
  | none => []
  | some results =>
    if similarity_threshold > 0 then
      results.filter (fun doc => similarity_threshold ≤ doc.similarity.getD 0)
    else results

/-! ### Embedding client: `PDFProcessor.generate_embedding`

Python (pdf_processor.py lines 132-140): the service call either raises or
returns a response whose `data[0].embedding` is read; any exception
(including an empty `data`) is caught and `[]` returned.  The outcome of
the external call is an `Except` oracle whose payload is the response
data, each datum being its embedding vector. -/

/-- Embedding of `PDFProcessor.generate_embedding`. -/
def generate_embedding (svc : Except String (List (List ℚ))) : List ℚ :=
  match svc with
  | Except.error _ => []
  | Except.ok [] => []
  | Except.ok (e :: _) => e

/-! ### Query pipeline: `HRAssistantTeam.ask_question`

Python (hr_agents.py lines 99-153).  The chat completion call is a
black-box oracle `chat`; the store aggregate is the oracle `agg` (fed the
question embedding and `top_k`).  Note the code calls `search` with its
default `similarity_threshold=0.0`, and reads
`result.get("similarity", 1.0)` (default 1, unlike the search filter
default of 0) before displaying `1 - similarity` as the relevance. -/

/-- Python `result.get("metadata", \x7b\x7d).get("source", "Unknown")`. -/
def get_source (result : SearchResult) : String :=
  ((result.metadata.getD []).lookup "source").getD "Unknown"

/-- The relevance value `1 - q` displayed for a raw score `q`, computed on
numerator and denominator so that concrete instances reduce; the lemma
`oneMinus_eq` identifies it with rational subtraction. -/
def oneMinus (q : ℚ) : ℚ := mkRat ((q.den : Int) - q.num) q.den

/-- Round-to-even of `q * 10000`, the number of hundredths of a percent
that Python `format(q, ".2%")` displays. -/
def pctUnits (q : ℚ) : Int :=
  let a : Int := q.num * 10000
  let d : Int := (q.den : Int)
  let f : Int := Int.fdiv a d
  let r2 : Int := 2 * (a - f * d)
  if r2 < d then f
  else if r2 > d then f + 1
  else if f % 2 = 0 then f
  else f + 1

/-- Two-digit decimal rendering of a value below 100. -/
def natTwoDigits (m : Nat) : String :=
  if m < 10 then "0" ++ toString m else toString m

/-- Python `f"\x7bq:.2%\x7d"`: the value times 100, to two decimal places,
with a percent sign. -/
def pyFormatPct (q : ℚ) : String :=
  let n := pctUnits q
  let m := n.natAbs
  (if n < 0 then "-" else "") ++ toString (m / 100) ++ "." ++ natTwoDigits (m % 100) ++ "%"

/-- One entry of `context_parts` (hr_agents.py lines 117-119): the
f-string `[Document \x7bi\x7d - Source: \x7bsource\x7d (Relevance:
\x7bsimilarity_score:.2%\x7d)]` followed by the content, where
`similarity_score = 1 - result.get("similarity", 1.0)`. -/
def excerpt_string (i : Nat) (result : SearchResult) : String :=
  "[Document " ++ toString i ++ " - Source: " ++ get_source result ++
    " (Relevance: " ++ pyFormatPct (oneMinus (result.similarity.getD 1)) ++ ")]\n" ++
    result.content.getD "" ++ "\n"

/-- The `for i, result in enumerate(results, 1)` loop building
`context_parts`. -/
def contextLoop : Nat → List SearchResult → List String
  | _, [] => []
  | i, r :: rs => excerpt_string i r :: contextLoop (i + 1) rs

/-- The `context_parts` list of `ask_question`. -/
def context_parts (results : List SearchResult) : List String :=
  contextLoop 1 results

/-- Python `"\n".join(context_parts)`. -/
def build_context (results : List SearchResult) : String :=
  String.intercalate "\n" (context_parts results)

/-- The augmented prompt of `ask_question` (lines 125-135). -/
def augmented_message (context question : String) : String :=
  "Based on the following HR document excerpts, please answer the question.\n\nCONTEXT FROM HR DOCUMENTS:\n"
    ++ context ++ "\n\nEMPLOYEE QUESTION: " ++ question
    ++ "\n\nINSTRUCTIONS:\n- Provide a clear, concise answer based ONLY on the information in the context above\n- If the context doesn\x27t contain enough information to answer, explicitly state that\n- Cite the source document when providing information"

/-- Embedding of `HRAssistantTeam.ask_question`: embed the question, run
the vector search (with the default threshold 0), assemble the context,
and return the chat reply to the augmented prompt verbatim. -/
def ask_question (embed_svc : Except String (List (List ℚ)))
    (agg : List ℚ → Nat → Option (List SearchResult))
    (chat : String → String) (question : String) (top_k : Nat) : String :=
  let question_embedding := generate_embedding embed_svc
  let results := search (agg question_embedding top_k) 0
  chat (augmented_message (build_context results) question)

/-- Default value used when indexing result lists. -/
def defaultResult : SearchResult := ⟨none, none, none⟩

/-- Witness metadata carrying a source filename. -/
def sampleMeta : List (String × String) := [( "source", "handbook.pdf")]

/-- Witness content. -/
def sampleContent : String := "Policy text"

/-- Witness query result with raw score 0 (displayed relevance 1). -/
def sampleResult : SearchResult := ⟨some sampleContent, some sampleMeta, some 0⟩

/-- Witness query result with raw score 1. -/
def rawHigh : SearchResult := ⟨some sampleContent, some sampleMeta, some 1⟩

/-- Witness query result with raw score 0 and no metadata. -/
def rawLow : SearchResult := ⟨none, none, some 0⟩

/-- Identity chat oracle, returning the prompt it is sent. -/
def idChat : String → String := fun s => s

/-- Aggregate oracle modelling an empty store: zero results. -/
def emptyAgg : List ℚ → Nat → Option (List SearchResult) := fun _ _ => some []

/-- Witness question. -/
def sampleQuestion : String := "What is the leave policy?"

/-- Witness embedding service outcome. -/
def okSvc : Except String (List (List ℚ)) := Except.ok [[1]]

end HRQA

namespace HRQA

/-! ### Hash test vectors (RFC 1321) -/

theorem md5_hexdigest_empty :
    md5_hexdigest emptyText = "d41d8cd98f00b204e9800998ecf8427e" := by decide

theorem md5_hexdigest_abc :
    md5_hexdigest abcText = "900150983cd24fb0d6963f7d28e17f72" := by decide

/-! ### Lemmas about `pyStrip` and `chunkLoop` -/

theorem pyStrip_length_le (l : List Char) : (pyStrip l).length ≤ l.length := by
  have h1 : (List.dropWhile isPySpace l).length ≤ l.length :=
    List.Sublist.length_le (List.dropWhile_sublist _)
  have h2 : (List.dropWhile isPySpace (List.reverse (List.dropWhile isPySpace l))).length
      ≤ (List.reverse (List.dropWhile isPySpace l)).length :=
    List.Sublist.length_le (List.dropWhile_sublist _)
  simp only [pyStrip, List.rdropWhile, List.length_reverse] at *
  omega

theorem pyStrip_eq_nil_of_all (l : List Char) (h : ∀ c ∈ l, isPySpace c) :
    pyStrip l = [] := by
  have hd : List.dropWhile isPySpace l = [] := List.dropWhile_eq_nil_iff.mpr h
  simp [pyStrip, hd, List.rdropWhile]

theorem pyStrip_idem (l : List Char) : pyStrip (pyStrip l) = pyStrip l := by
  have hy : List.dropWhile isPySpace (List.dropWhile isPySpace l) =
      List.dropWhile isPySpace l := List.dropWhile_idempotent _ _
  set y := List.dropWhile isPySpace l with hy_def
  set z := List.rdropWhile isPySpace y with hz_def
  have hzy : z <+: y := List.rdropWhile_prefix _ _
  have hA : List.dropWhile isPySpace z = z := by
    rw [List.dropWhile_eq_self_iff]
    intro hl
    have hyl : 0 < y.length := lt_of_lt_of_le hl (List.IsPrefix.length_le hzy)
    have hget : y.get ⟨0, hyl⟩ = z.get ⟨0, hl⟩ := by
      simpa using (List.IsPrefix.getElem hzy hl).symm
    have := List.dropWhile_eq_self_iff.mp hy hyl
    rw [hget] at this
    exact this
  have hB : List.rdropWhile isPySpace z = z := List.rdropWhile_idempotent _ _
  show List.rdropWhile isPySpace (List.dropWhile isPySpace z) = z
  rw [hA, hB]

theorem pySlice_length_le (l : List Char) (s n : Nat) :
    (pySlice l s (s + n)).length ≤ n := by
  simp only [pySlice, List.length_drop, List.length_take]
  omega

theorem pySlice_subset (l : List Char) (s f : Nat) :
    ∀ c ∈ pySlice l s f, c ∈ l := by
  intro c hc
  exact List.mem_of_mem_take (List.mem_of_mem_drop hc)

theorem chunkLoop_mem (text : List Char) (cs ov : Nat) :
    ∀ (fuel start : Nat) (l : List (List Char)),
      chunkLoop text cs ov fuel start = some l →
      ∀ c ∈ l, c ≠ [] ∧ c.length ≤ cs ∧ pyStrip c = c := by
  intro fuel
  induction fuel with
  | zero =>
    intro start l h c hc
    by_cases hs : start < text.length <;> simp [chunkLoop, hs] at h
    subst h; cases hc
  | succ n ih =>
    intro start l h c hc
    by_cases hs : start < text.length
    · rw [chunkLoop, if_pos hs] at h
      cases hrec : chunkLoop text cs ov n (start + (cs - ov)) with
      | none => rw [hrec] at h; cases h
      | some rest =>
        rw [hrec] at h
        have hl : l = if (pyStrip (pySlice text start (start + cs))).isEmpty then rest
            else pyStrip (pySlice text start (start + cs)) :: rest := by
          cases h; rfl
        by_cases hemp : (pyStrip (pySlice text start (start + cs))).isEmpty
        · rw [hl, if_pos hemp] at hc
          exact ih (start + (cs - ov)) rest hrec c hc
        · rw [hl, if_neg hemp] at hc
          cases hc with
          | head =>
            refine ⟨by simpa [List.isEmpty_iff] using hemp, ?_, pyStrip_idem _⟩
            exact le_trans (pyStrip_length_le _) (pySlice_length_le _ _ _)
          | tail _ hmem => exact ih (start + (cs - ov)) rest hrec c hmem
    · rw [chunkLoop, if_neg hs] at h
      cases h; cases hc

theorem chunkLoop_all_space (text : List Char) (cs ov : Nat)
    (hall : ∀ c ∈ text, isPySpace c) :
    ∀ (fuel start : Nat) (l : List (List Char)),
      chunkLoop text cs ov fuel start = some l → l = [] := by
  intro fuel
  induction fuel with
  | zero =>
    intro start l h
    by_cases hs : start < text.length <;> simp [chunkLoop, hs] at h
    exact h
  | succ n ih =>
    intro start l h
    by_cases hs : start < text.length
    · rw [chunkLoop, if_pos hs] at h
      cases hrec : chunkLoop text cs ov n (start + (cs - ov)) with
      | none => rw [hrec] at h; cases h
      | some rest =>
        rw [hrec] at h
        have hemp : pyStrip (pySlice text start (start + cs)) = [] :=
          pyStrip_eq_nil_of_all _ (fun c hc => hall c (pySlice_subset _ _ _ c hc))
        have : l = rest := by cases h; simp [hemp]
        rw [this]
        exact ih (start + (cs - ov)) rest hrec
    · rw [chunkLoop, if_neg hs] at h
      cases h; rfl

theorem chunkLoop_isSome (text : List Char) (cs ov : Nat) (hov : ov < cs) :
    ∀ (fuel start : Nat), text.length - start < fuel →
      (chunkLoop text cs ov fuel start).isSome = true := by
  intro fuel
  induction fuel with
  | zero => intro start h; omega
  | succ n ih =>
    intro start h
    by_cases hs : start < text.length
    · rw [chunkLoop, if_pos hs]
      have hrec := ih (start + (cs - ov)) (by omega)
      cases hval : chunkLoop text cs ov n (start + (cs - ov)) with
      | none => rw [hval] at hrec; cases hrec
      | some rest => simp
    · rw [chunkLoop, if_neg hs]
      rfl

/-! ### Claims C1, C2, C3 -/

/-- C1 counterexample: `chunk_text` on the exact input of the spec example
does not return the claimed two-element list, because the loop also emits
a third window at offset 14. -/
theorem c1_counterexample :
    chunk_text helloWorldTest 10 3 ≠ some [ "Hello worl", "orld test"] := by
  decide

/-- C1 amended: `chunk_text` applied to the exact input with
`chunk_size = 10` and `overlap = 3` returns the three-element list of the
windows at offsets 0, 7 and 14 (stride 7). -/
theorem c1_chunk_example :
    chunk_text helloWorldTest 10 3 = some [ "Hello worl", "orld test", "st"] := by
  decide

/-- C2: for every text, positive chunk size and overlap below the chunk
size, every returned chunk is non-empty, fixed by stripping (hence free of
leading and trailing whitespace) and at most `chunk_size` long, and a text
that is empty or all whitespace yields the empty chunk list. -/
theorem c2_chunk_text_wellformed (text : String) (chunk_size overlap : Nat)
    (_hcs : 0 < chunk_size) (_hov : overlap < chunk_size)
    (l : List String) (h : chunk_text text chunk_size overlap = some l) :
    (∀ s ∈ l, s ≠ "" ∧ s.length ≤ chunk_size ∧ pyStrip s.toList = s.toList) ∧
    ((∀ c ∈ text.toList, isPySpace c) → l = []) := by
  obtain ⟨l0, hl0, hmap⟩ := Option.map_eq_some'.mp h
  constructor
  · intro s hs
    rw [← hmap] at hs
    obtain ⟨c, hc, hsc⟩ := List.mem_map.mp hs
    obtain ⟨hne, hlen, hstrip⟩ := chunkLoop_mem text.toList chunk_size overlap _ _ l0 hl0 c hc
    subst hsc
    refine ⟨?_, ?_, ?_⟩
    · intro hcontra
      apply hne
      have : (String.mk c).data = ("" : String).data := by rw [hcontra]
      simpa using this
    · simpa [String.length] using hlen
    · simpa [String.toList] using hstrip
  · intro hall
    have : l0 = [] := chunkLoop_all_space text.toList chunk_size overlap hall _ _ l0 hl0
    rw [← hmap, this]
    rfl

/-- C2 witness at a concrete input. -/
theorem c2_witness :
    (∀ s ∈ [ "Hello worl", "orld test", "st"],
      s ≠ "" ∧ s.length ≤ 10 ∧ pyStrip s.toList = s.toList) ∧
    ((∀ c ∈ helloWorldTest.toList, isPySpace c) →
      ([ "Hello worl", "orld test", "st"] : List String) = []) :=
  c2_chunk_text_wellformed helloWorldTest 10 3 (by decide) (by decide)
    ([ "Hello worl", "orld test", "st"]) (by decide)

/-- C3: whenever `overlap < chunk_size` (positive stride) the chunking
loop terminates; the component itself never checks this precondition, and
the model diverges (returns `none`) exactly when the stride is not
positive. -/
theorem c3_chunk_text_terminates (text : String) (chunk_size overlap : Nat)
    (hov : overlap < chunk_size) :
    (chunk_text text chunk_size overlap).isSome = true := by
  have h := chunkLoop_isSome text.toList chunk_size overlap hov
    (text.toList.length + 1) 0 (by omega)
  unfold chunk_text
  cases hval : chunkLoop text.toList chunk_size overlap (text.toList.length + 1) 0 with
  | none => rw [hval] at h; cases h
  | some l => rfl

/-- C3 witness at a concrete input. -/
theorem c3_witness : (chunk_text helloWorldTest 10 3).isSome = true :=
  c3_chunk_text_terminates helloWorldTest 10 3 (by decide)

/-! ### Lemmas about the document store -/

theorem append_doc_inj {x y : String} (h : ( "doc_" ++ x) = ( "doc_" ++ y)) : x = y := by
  have hdata : ("doc_" : String).data ++ x.data = ("doc_" : String).data ++ y.data := by
    have := congrArg String.data h
    simpa using this
  exact String.ext (List.append_cancel_left hdata)

theorem hasKey_replace_one (store : Store) (id k : String) (doc : PyDoc)
    (h : hasKey store k = true) : hasKey (replace_one store id doc) k = true := by
  unfold hasKey replace_one
  obtain ⟨kv, hkv, hbeq⟩ := List.any_eq_true.mp h
  by_cases hc : store.any (fun kv => kv.1 == id)
  · rw [if_pos hc]
    apply List.any_eq_true.mpr
    by_cases he : kv.1 == id
    · refine ⟨(id, doc), List.mem_map.mpr ⟨kv, hkv, by simp [he]⟩, ?_⟩
      have h1 : kv.1 = id := by simpa using he
      have h2 : kv.1 = k := by simpa using hbeq
      simp [← h1, h2]
    · exact ⟨kv, List.mem_map.mpr ⟨kv, hkv, by simp [he]⟩, hbeq⟩
  · rw [if_neg hc]
    exact List.any_eq_true.mpr ⟨kv, List.mem_append_left _ hkv, hbeq⟩

theorem hasKey_replace_one_self (store : Store) (id : String) (doc : PyDoc) :
    hasKey (replace_one store id doc) id = true := by
  unfold hasKey replace_one
  by_cases hc : store.any (fun kv => kv.1 == id)
  · rw [if_pos hc]
    obtain ⟨kv, hkv, hbeq⟩ := List.any_eq_true.mp hc
    exact List.any_eq_true.mpr ⟨(id, doc), List.mem_map.mpr ⟨kv, hkv, by simp [hbeq]⟩, by simp⟩
  · rw [if_neg hc]
    exact List.any_eq_true.mpr ⟨(id, doc), List.mem_append_right _ (by simp), by simp⟩

theorem insertLoop_hasKey_mono (failIdx : List Nat) :
    ∀ (docs : List PyDoc) (store : Store) (i0 : Nat) (k : String),
      hasKey store k = true → hasKey (insertLoop failIdx store i0 docs).1 k = true := by
  intro docs
  induction docs with
  | nil => intro store i0 k h; simpa [insertLoop] using h
  | cons d ds ih =>
    intro store i0 k h
    by_cases hf : i0 ∈ failIdx
    · simpa only [insertLoop, if_pos hf] using ih store (i0 + 1) k h
    · simpa only [insertLoop, if_neg hf] using
        ih _ (i0 + 1) k (hasKey_replace_one store _ k _ h)

theorem insertLoop_count (failIdx : List Nat) :
    ∀ (docs : List PyDoc) (store : Store) (i0 : Nat),
      (insertLoop failIdx store i0 docs).2.1 =
        ((List.range docs.length).filter (fun j => decide ((i0 + j) ∉ failIdx))).length := by
  intro docs
  induction docs with
  | nil => intro store i0; simp [insertLoop]
  | cons d ds ih =>
    intro store i0
    have hshift : ∀ (s : Store),
        (insertLoop failIdx s (i0 + 1) ds).2.1 =
          ((List.range ds.length).filter
            (fun j => decide ((i0 + (j + 1)) ∉ failIdx))).length := by
      intro s
      rw [ih s (i0 + 1)]
      congr 1
      apply List.filter_congr
      intro j _
      have : i0 + 1 + j = i0 + (j + 1) := by omega
      rw [this]
    have hmap : ((List.range (ds.length + 1)).filter
          (fun j => decide ((i0 + j) ∉ failIdx))).length =
        (if i0 ∉ failIdx then 1 else 0) +
          ((List.range ds.length).filter
            (fun j => decide ((i0 + (j + 1)) ∉ failIdx))).length := by
      rw [List.range_succ_eq_map, List.filter_cons, List.filter_map]
      by_cases hf : i0 ∉ failIdx
      · simp only [hf, decide_not, Function.comp_def]
        simp [hf]
        omega
      · simp [hf, Function.comp_def]
    by_cases hf : i0 ∈ failIdx
    · have hzero : (if i0 ∉ failIdx then 1 else 0) = 0 := by simp [hf]
      simp only [insertLoop, if_pos hf, List.length_cons, hmap, hshift store, hzero]
      omega
    · have hone : (if i0 ∉ failIdx then 1 else 0) = 1 := if_pos hf
      simp only [insertLoop, if_neg hf, List.length_cons, hmap, hshift, hone]
      omega

theorem insertLoop_writes (failIdx : List Nat) :
    ∀ (docs : List PyDoc) (store : Store) (i0 j : Nat), j < docs.length →
      (i0 + j) ∉ failIdx →
      hasKey (insertLoop failIdx store i0 docs).1
        ((assignId (docs.getD j defaultDoc)).docId.getD "") = true := by
  intro docs
  induction docs with
  | nil => intro store i0 j hj; exact absurd hj (by simp)
  | cons d ds ih =>
    intro store i0 j hj hnf
    cases j with
    | zero =>
      have hf : i0 ∉ failIdx := by simpa using hnf
      simp only [insertLoop, if_neg hf, List.getD_cons_zero]
      exact insertLoop_hasKey_mono failIdx ds _ (i0 + 1) _ (hasKey_replace_one_self store _ _)
    | succ jj =>
      have hj' : jj < ds.length := by simpa using hj
      have hnf' : (i0 + 1 + jj) ∉ failIdx := by
        have : i0 + 1 + jj = i0 + (jj + 1) := by omega
        rw [this]; exact hnf
      by_cases hf : i0 ∈ failIdx
      · simpa only [insertLoop, if_pos hf, List.getD_cons_succ] using
          ih store (i0 + 1) jj hj' hnf'
      · simpa only [insertLoop, if_neg hf, List.getD_cons_succ] using
          ih _ (i0 + 1) jj hj' hnf'

theorem insertLoop_mutated (failIdx : List Nat) :
    ∀ (docs : List PyDoc) (store : Store) (i0 : Nat),
      (insertLoop failIdx store i0 docs).2.2 = docs.map assignId := by
  intro docs
  induction docs with
  | nil => intro store i0; simp [insertLoop]
  | cons d ds ih =>
    intro store i0
    by_cases hf : i0 ∈ failIdx <;> simp [insertLoop, hf, ih]

/-! ### Claims C4, C7, C10 -/

/-- C4 counterexample: two documents whose contents differ (a published
MD5 collision pair) are assigned the same id, and upserting the second
overwrites the first, leaving a single stored record.  This refutes the
universally quantified reading of the claim. -/
theorem c4_counterexample :
    docA.content ≠ docB.content ∧
    (assignId docA).docId = some collisionId ∧
    (assignId docB).docId = some collisionId ∧
    (insert_documents [] [] [docA, docB]).1 = [(collisionId, assignId docB)] := by
  decide

/-- C4 amended: a record lacking an id receives `doc_` followed by the MD5
hex digest of its content, a deterministic function of content alone;
upserting a record with the same content twice leaves exactly one stored
record with unchanged id; and a record whose content has a different MD5
digest receives a different id and does not overwrite the first. -/
theorem c4_content_hash_upsert (d1 d2 d3 : PyDoc)
    (h1 : d1.docId = none) (h2 : d2.docId = none) (h3 : d3.docId = none)
    (heq : d2.content = d1.content)
    (hne : md5_hexdigest (d3.content.getD "") ≠ md5_hexdigest (d1.content.getD "")) :
    (assignId d1).docId = some ( "doc_" ++ md5_hexdigest (d1.content.getD "")) ∧
    (insert_documents [] [] [d1, d2]).1 =
      [( "doc_" ++ md5_hexdigest (d1.content.getD ""), assignId d2)] ∧
    (assignId d3).docId ≠ (assignId d1).docId ∧
    (insert_documents [] [] [d1, d3]).1 =
      [( "doc_" ++ md5_hexdigest (d1.content.getD ""), assignId d1),
       ( "doc_" ++ md5_hexdigest (d3.content.getD ""), assignId d3)] := by
  have ha1 : (assignId d1).docId = some ( "doc_" ++ md5_hexdigest (d1.content.getD "")) := by
    simp [assignId, h1]
  have ha2 : (assignId d2).docId = some ( "doc_" ++ md5_hexdigest (d1.content.getD "")) := by
    simp [assignId, h2, heq]
  have ha3 : (assignId d3).docId = some ( "doc_" ++ md5_hexdigest (d3.content.getD "")) := by
    simp [assignId, h3]
  have hK : ( "doc_" ++ md5_hexdigest (d3.content.getD "")) ≠
      ( "doc_" ++ md5_hexdigest (d1.content.getD "")) := by
    intro hcontra
    exact hne (append_doc_inj hcontra)
  refine ⟨ha1, ?_, ?_, ?_⟩
  · simp [insert_documents, insertLoop, replace_one, ha1, ha2]
  · rw [ha3, ha1]
    simp only [ne_eq, Option.some.injEq]
    intro hcontra
    exact hK hcontra
  · simp [insert_documents, insertLoop, replace_one, ha1, ha3, hK, Ne.symm hK]

/-- C4 witness at concrete inputs. -/
theorem c4_witness :
    (assignId docOne).docId = some ( "doc_" ++ md5_hexdigest (docOne.content.getD "")) ∧
    (insert_documents [] [] [docOne, docOne]).1 =
      [( "doc_" ++ md5_hexdigest (docOne.content.getD ""), assignId docOne)] ∧
    (assignId docTwo).docId ≠ (assignId docOne).docId ∧
    (insert_documents [] [] [docOne, docTwo]).1 =
      [( "doc_" ++ md5_hexdigest (docOne.content.getD ""), assignId docOne),
       ( "doc_" ++ md5_hexdigest (docTwo.content.getD ""), assignId docTwo)] :=
  c4_content_hash_upsert docOne docOne docTwo rfl rfl rfl rfl (by decide)

/-- C7: the count returned by `insert_documents` is exactly the number of
loop indices whose write succeeded, and every record whose write is not in
the failure set ends up stored under its id — a failing write never
prevents later records of the batch from being written. -/
theorem c7_insert_documents (failIdx : List Nat) (store : Store) (documents : List PyDoc) :
    (insert_documents failIdx store documents).2.1 =
      ((List.range documents.length).filter (fun j => decide (j ∉ failIdx))).length ∧
    ∀ j, j < documents.length → j ∉ failIdx →
      hasKey (insert_documents failIdx store documents).1
        ((assignId (documents.getD j defaultDoc)).docId.getD "") = true := by
  constructor
  · rw [insert_documents, insertLoop_count failIdx documents store 0]
    congr 1
    apply List.filter_congr
    intro j _
    rw [Nat.zero_add]
  · intro j hj hnf
    have : (0 + j) ∉ failIdx := by simpa using hnf
    exact insertLoop_writes failIdx documents store 0 j hj this

/-- C7 witness: with the write of record 0 failing, the returned count is
1 and record 1 is still written. -/
theorem c7_witness :
    (insert_documents [0] [] [docOne, docTwo]).2.1 =
      ((List.range ([docOne, docTwo] : List PyDoc).length).filter
        (fun j => decide (j ∉ ([0] : List Nat)))).length ∧
    hasKey (insert_documents [0] [] [docOne, docTwo]).1
      ((assignId (([docOne, docTwo] : List PyDoc).getD 1 defaultDoc)).docId.getD "") = true := by
  have h := c7_insert_documents [0] [] [docOne, docTwo]
  exact ⟨h.1, h.2 1 (by decide) (by decide)⟩

/-- C10: `insert_documents` hands back every input document with the
content-hash id filled in when it was absent (the Python loop mutates the
dictionaries supplied by the caller), and changes nothing else: content
and remaining fields are untouched, and a document that already carries an
id is returned entirely unchanged. -/
theorem c10_insert_documents_mutates (failIdx : List Nat) (store : Store)
    (documents : List PyDoc) :
    (insert_documents failIdx store documents).2.2 = documents.map assignId ∧
    ∀ d ∈ documents,
      (d.docId = none →
        (assignId d).docId = some ( "doc_" ++ md5_hexdigest (d.content.getD ""))) ∧
      (assignId d).content = d.content ∧
      (assignId d).fields = d.fields ∧
      (∀ i, d.docId = some i → assignId d = d) := by
  refine ⟨insertLoop_mutated failIdx documents store 0, ?_⟩
  intro d _
  refine ⟨fun hd => by simp [assignId, hd], ?_, ?_, fun i hd => by simp [assignId, hd]⟩
  · cases hd : d.docId <;> simp [assignId, hd]
  · cases hd : d.docId <;> simp [assignId, hd]

/-- C10 witness at a concrete input. -/
theorem c10_witness :
    (insert_documents [] [] [docOne]).2.2 = [docOne].map assignId ∧
    (assignId docOne).docId = some ( "doc_" ++ md5_hexdigest (docOne.content.getD "")) := by
  have h := c10_insert_documents_mutates [] [] [docOne]
  exact ⟨h.1, (h.2 docOne (by simp)).1 rfl⟩

/-! ### Lemmas about the query pipeline -/

theorem oneMinus_eq (q : ℚ) : oneMinus q = 1 - q := by
  have hd : (q.den : ℚ) ≠ 0 := Nat.cast_ne_zero.mpr q.den_nz
  have hnum : (q.num : ℚ) = q * (q.den : ℚ) := (div_eq_iff hd).mp (Rat.num_div_den q)
  rw [oneMinus, Rat.mkRat_eq_div]
  push_cast
  rw [div_eq_iff hd, sub_mul, one_mul, hnum]

theorem contextLoop_length : ∀ (k : Nat) (rs : List SearchResult),
    (contextLoop k rs).length = rs.length := by
  intro k rs
  induction rs generalizing k with
  | nil => rfl
  | cons r rs ih => simp [contextLoop, ih]

theorem contextLoop_getD : ∀ (rs : List SearchResult) (k i : Nat), i < rs.length →
    (contextLoop k rs).getD i "" = excerpt_string (k + i) (rs.getD i defaultResult) := by
  intro rs
  induction rs with
  | nil => intro k i h; simp at h
  | cons r rs ih =>
    intro k i h
    cases i with
    | zero => simp [contextLoop]
    | succ j =>
      have hj : j < rs.length := by simpa using h
      have := ih (k + 1) j hj
      simp only [contextLoop, List.getD_cons_succ, this]
      congr 1
      omega

/-! ### Claims C5, C6, C8, C9 -/

/-- C5: whatever list the store aggregate hands back (at most `top_k`
results, sorted by non-increasing score, per its contract), `search`
returns at most `top_k` results in non-increasing score order, and a
threshold argument of 0 switches the score filter off entirely. -/
theorem c5_search_topk_ordered (raw : Option (List SearchResult)) (top_k : Nat)
    (similarity_threshold : ℚ)
    (hlen : ∀ rs, raw = some rs → rs.length ≤ top_k)
    (hsort : ∀ rs, raw = some rs →
      rs.Pairwise (fun a b => b.similarity.getD 0 ≤ a.similarity.getD 0)) :
    (search raw similarity_threshold).length ≤ top_k ∧
    (search raw similarity_threshold).Pairwise
      (fun a b => b.similarity.getD 0 ≤ a.similarity.getD 0) ∧
    (similarity_threshold = 0 → search raw similarity_threshold = raw.getD []) := by
  cases raw with
  | none => simp [search]
  | some rs =>
    have h1 := hlen rs rfl
    have h2 := hsort rs rfl
    by_cases ht : similarity_threshold > 0
    · refine ⟨?_, ?_, ?_⟩
      · simp only [search, if_pos ht]
        exact le_trans (List.length_filter_le _ _) h1
      · simp only [search, if_pos ht]
        exact List.Pairwise.filter _ h2
      · intro h0
        rw [h0] at ht
        exact absurd ht (lt_irrefl 0)
    · simp only [search, if_neg ht]
      exact ⟨h1, h2, fun _ => rfl⟩

/-- C5 witness at concrete inputs. -/
theorem c5_witness :
    (search (some [rawHigh, rawLow]) 0).length ≤ 5 ∧
    (search (some [rawHigh, rawLow]) 0).Pairwise
      (fun a b => b.similarity.getD 0 ≤ a.similarity.getD 0) ∧
    ((0 : ℚ) = 0 → search (some [rawHigh, rawLow]) 0 = (some [rawHigh, rawLow]).getD []) :=
  c5_search_topk_ordered (some [rawHigh, rawLow]) 5 0
    (fun rs hrs => by rw [← Option.some.inj hrs]; decide)
    (fun rs hrs => by rw [← Option.some.inj hrs]; decide)

/-- C6: `generate_embedding` returns the vector the embedding service
produced on success, and the empty vector on any failure of the call
(including a response with no data); being a total function of the call
outcome, it raises nothing to its caller. -/
theorem c6_generate_embedding_total :
    (∀ (e : List ℚ) (rest : List (List ℚ)),
      generate_embedding (Except.ok (e :: rest)) = e) ∧
    (∀ msg : String, generate_embedding (Except.error msg) = []) ∧
    generate_embedding (Except.ok []) = [] :=
  ⟨fun _ _ => rfl, fun _ => rfl, rfl⟩

/-- C8: the context block holds exactly one labelled excerpt per
retrieved result and, at every position, the excerpt carries the ordinal
(position plus one), the source from the result metadata, the content,
and a relevance percentage formatted from `1 -` the raw score returned by
the store. -/
theorem c8_context_excerpts (results : List SearchResult) :
    (context_parts results).length = results.length ∧
    ∀ i, i < results.length →
      (context_parts results).getD i "" =
        "[Document " ++ toString (i + 1) ++ " - Source: " ++
          get_source (results.getD i defaultResult) ++ " (Relevance: " ++
          pyFormatPct (1 - (results.getD i defaultResult).similarity.getD 1) ++ ")]\n" ++
          (results.getD i defaultResult).content.getD "" ++ "\n" := by
  refine ⟨contextLoop_length 1 results, ?_⟩
  intro i hi
  rw [context_parts, contextLoop_getD results 1 i hi, excerpt_string, oneMinus_eq,
    Nat.add_comm 1 i]

/-- C8 witness at a concrete input: one result with raw score 0 displays
relevance 100.00%. -/
theorem c8_witness :
    (context_parts [sampleResult]).length = 1 ∧
    (context_parts [sampleResult]).getD 0 "" =
      "[Document 1 - Source: handbook.pdf (Relevance: 100.00%)]\nPolicy text\n" := by
  have h := c8_context_excerpts [sampleResult]
  refine ⟨h.1, ?_⟩
  rw [h.2 0 (by decide)]
  have h3 : (1 : ℚ) - (([sampleResult] : List SearchResult).getD 0 defaultResult).similarity.getD 1 = 1 := by
    show (1 : ℚ) - 0 = 1
    exact sub_zero 1
  rw [h3]
  decide

/-- C9: when retrieval produces zero results, the context block is the
empty string, and the chat oracle is still invoked on the augmented
prompt built from that empty context, its reply being returned verbatim. -/
theorem c9_empty_retrieval (embed_svc : Except String (List (List ℚ)))
    (agg : List ℚ → Nat → Option (List SearchResult)) (chat : String → String)
    (question : String) (top_k : Nat)
    (hempty : agg (generate_embedding embed_svc) top_k = some []) :
    build_context [] = "" ∧
    ask_question embed_svc agg chat question top_k =
      chat (augmented_message "" question) := by
  refine ⟨rfl, ?_⟩
  rw [ask_question]
  rw [hempty]
  rfl

/-- C9 witness with concrete oracles: an identity chat oracle exposes the
exact prompt sent, with an empty context block inside it. -/
theorem c9_witness :
    build_context [] = "" ∧
    ask_question okSvc emptyAgg idChat sampleQuestion 5 =
      idChat (augmented_message "" sampleQuestion) :=
  c9_empty_retrieval okSvc emptyAgg idChat sampleQuestion 5 rfl

end HRQA
